import Mathlib

/-!
Shallow embedding of the mongorunway migration core: the Migration and
MigrationReadModel entities with their dictionary projection, the checksum
service (MD5 content hashing), the business-rule evaluation pass and the
filename strategies, together with theorems settling the specification
claims about them.
-/

set_option maxRecDepth 10000

/-- Dynamic values stored in the flat migration document: Python scalars
that appear in `Migration.to_dict` output (strings, integers, booleans). -/
inductive Value where
  | str (s : String)
  | int (n : Int)
  | bool (b : Bool)
deriving DecidableEq, Repr

/-- A Python dict modelled as an association list in insertion order; a
real dict has pairwise distinct keys. -/
abbrev Mapping := List (String × Value)

/-- Lookup of a key in a mapping, first match wins (for distinct keys this
is exactly Python dict access). -/
def lookupKey : Mapping → String → Option Value
  | [], _ => none
  | (k, v) :: rest, key => if k == key then some v else lookupKey rest key

/-- The effect of `mapping.pop("_id", None)` on the caller's dict: the
entry keyed by the identity key is removed. -/
def stripId (m : Mapping) : Mapping :=
  m.filter (fun p => !(p.1 == "_id"))

/-- The five field names of `MigrationReadModel`, the exact keyword
parameters accepted by its constructor. -/
def requiredKeys : List String :=
  ["name", "version", "checksum", "description", "is_applied"]

/-- One directional execution plan of a migration, per the
`MigrationProcess` class: a label, an ordered command sequence, the
owning migration's version and an ordered rule sequence.  Commands and
rules are polymorphic, as in the source they are duck-typed objects. -/
structure MigrationProcess (C R : Type) where
  name : String
  commands : List C
  migration_version : Int
  rules : List R
deriving DecidableEq

/-- The `Migration` entity: scalar identity fields, the mutable applied
flag and the two directional processes. -/
structure Migration (C R : Type) where
  name : String
  version : Int
  checksum : String
  is_applied : Bool
  description : String
  upgrade_process : MigrationProcess C R
  downgrade_process : MigrationProcess C R
deriving DecidableEq

/-- `Migration.set_is_applied(value)`: the single assignment
`self._is_applied = value`; in the embedding the post-state of the
entity. -/
def Migration.set_is_applied (m : Migration C R) (value : Bool) : Migration C R :=
  { m with is_applied := value }

/-- `Migration.to_dict(unique=...)`: the flat scalar mapping in the
source's insertion order, with the identity key appended when `unique`
is true. -/
def Migration.to_dict (m : Migration C R) (unique : Bool) : Mapping :=
  let mapping : Mapping :=
    [ ("name", Value.str m.name),
      ("version", Value.int m.version),
      ("checksum", Value.str m.checksum),
      ("is_applied", Value.bool m.is_applied),
      ("description", Value.str m.description) ]
  if unique then mapping ++ [("_id", Value.int m.version)] else mapping

/-- The flat read model of a migration: the five scalar attributes.
Field values are dynamic, as Python dataclasses perform no runtime type
check on construction. -/
structure MigrationReadModel where
  name : Value
  version : Value
  checksum : Value
  description : Value
  is_applied : Value
deriving DecidableEq, Repr

/-- `MigrationReadModel.from_dict(mapping)`: pops the identity key, then
calls the dataclass constructor with the remaining entries as keyword
arguments.  The call succeeds exactly when the remaining key set is the
five field names: a missing field raises a TypeError, and so does an
unexpected keyword. -/
def MigrationReadModel.from_dict (mapping : Mapping) : Option MigrationReadModel :=
  match lookupKey (stripId mapping) "name", lookupKey (stripId mapping) "version",
      lookupKey (stripId mapping) "checksum", lookupKey (stripId mapping) "description",
      lookupKey (stripId mapping) "is_applied" with
  | some n, some v, some c, some d, some a =>
      if (stripId mapping).all (fun p => requiredKeys.contains p.1) then
        some ⟨n, v, c, d, a⟩
      else none
  | _, _, _, _, _ => none

/-- The caller's mapping as it stands after `from_dict` returns: the pop
of the identity key mutates the argument in place. -/
def MigrationReadModel.from_dict_post (mapping : Mapping) : Mapping :=
  stripId mapping

/-- `MigrationReadModel.from_migration(migration)`: extracts the five
scalar fields of the entity. -/
def MigrationReadModel.from_migration (m : Migration C R) : MigrationReadModel :=
  { name := Value.str m.name,
    version := Value.int m.version,
    checksum := Value.str m.checksum,
    description := Value.str m.description,
    is_applied := Value.bool m.is_applied }

/-! ### Checksum service

`calculate_migration_checksum` reads the module's backing file as text,
re-encodes it to bytes and returns `hashlib.md5(data).hexdigest()`.  The
MD5 algorithm (RFC 1321) is embedded below over byte lists, with 32-bit
words as naturals reduced modulo 2 ^ 32. -/

def M32 : Nat := 4294967296

/-- Bitwise complement on a 32-bit word. -/
def not32 (x : Nat) : Nat := Nat.xor x 4294967295

/-- Left rotation of a 32-bit word by n bits. -/
def rotl32 (x n : Nat) : Nat :=
  ((x * 2 ^ n) % M32) ||| (x / 2 ^ (32 - n))

/-- The 64 MD5 sine-derived round constants. -/
def md5K : List Nat :=
  [0xd76aa478, 0xe8c7b756, 0x242070db, 0xc1bdceee,
   0xf57c0faf, 0x4787c62a, 0xa8304613, 0xfd469501,
   0x698098d8, 0x8b44f7af, 0xffff5bb1, 0x895cd7be,
   0x6b901122, 0xfd987193, 0xa679438e, 0x49b40821,
   0xf61e2562, 0xc040b340, 0x265e5a51, 0xe9b6c7aa,
   0xd62f105d, 0x02441453, 0xd8a1e681, 0xe7d3fbc8,
   0x21e1cde6, 0xc33707d6, 0xf4d50d87, 0x455a14ed,
   0xa9e3e905, 0xfcefa3f8, 0x676f02d9, 0x8d2a4c8a,
   0xfffa3942, 0x8771f681, 0x6d9d6122, 0xfde5380c,
   0xa4beea44, 0x4bdecfa9, 0xf6bb4b60, 0xbebfbc70,
   0x289b7ec6, 0xeaa127fa, 0xd4ef3085, 0x04881d05,
   0xd9d4d039, 0xe6db99e5, 0x1fa27cf8, 0xc4ac5665,
   0xf4292244, 0x432aff97, 0xab9423a7, 0xfc93a039,
   0x655b59c3, 0x8f0ccc92, 0xffeff47d, 0x85845dd1,
   0x6fa87e4f, 0xfe2ce6e0, 0xa3014314, 0x4e0811a1,
   0xf7537e82, 0xbd3af235, 0x2ad7d2bb, 0xeb86d391]

/-- The 64 MD5 per-round left-rotation amounts. -/
def md5S : List Nat :=
  [7, 12, 17, 22, 7, 12, 17, 22, 7, 12, 17, 22, 7, 12, 17, 22,
   5, 9, 14, 20, 5, 9, 14, 20, 5, 9, 14, 20, 5, 9, 14, 20,
   4, 11, 16, 23, 4, 11, 16, 23, 4, 11, 16, 23, 4, 11, 16, 23,
   6, 10, 15, 21, 6, 10, 15, 21, 6, 10, 15, 21, 6, 10, 15, 21]

/-- The four 32-bit chaining words of the MD5 state. -/
structure MD5State where
  a : Nat
  b : Nat
  c : Nat
  d : Nat
deriving DecidableEq, Repr

/-- The MD5 nonlinear mixing function of round i. -/
def md5F (i b c d : Nat) : Nat :=
  if i < 16 then (b &&& c) ||| (not32 b &&& d)
  else if i < 32 then (d &&& b) ||| (not32 d &&& c)
  else if i < 48 then Nat.xor b (Nat.xor c d)
  else Nat.xor c (b ||| not32 d)

/-- The message-word index used by MD5 round i. -/
def md5G (i : Nat) : Nat :=
  if i < 16 then i
  else if i < 32 then (5 * i + 1) % 16
  else if i < 48 then (3 * i + 5) % 16
  else (7 * i) % 16

/-- One of the 64 MD5 rounds over a 16-word message block. -/
def md5Round (block : List Nat) (st : MD5State) (i : Nat) : MD5State :=
  let f := (md5F i st.b st.c st.d + st.a + md5K.getD i 0 + block.getD (md5G i) 0) % M32
  ⟨st.d, (st.b + rotl32 f (md5S.getD i 0)) % M32, st.b, st.c⟩

/-- Compression of one 16-word block into the chaining state. -/
def md5Block (st : MD5State) (block : List Nat) : MD5State :=
  let e := (List.range 64).foldl (md5Round block) st
  ⟨(st.a + e.a) % M32, (st.b + e.b) % M32, (st.c + e.c) % M32, (st.d + e.d) % M32⟩

/-- Little-endian 8-byte rendering of a 64-bit length. -/
def le8 (n : Nat) : List Nat :=
  [n % 256, n / 256 % 256, n / 256 ^ 2 % 256, n / 256 ^ 3 % 256,
   n / 256 ^ 4 % 256, n / 256 ^ 5 % 256, n / 256 ^ 6 % 256, n / 256 ^ 7 % 256]

/-- MD5 padding: a 0x80 byte, zeros up to 56 mod 64, then the bit length. -/
def md5Pad (msg : List Nat) : List Nat :=
  msg ++ 128 :: (List.replicate ((119 - msg.length % 64) % 64) 0 ++ le8 ((8 * msg.length) % 2 ^ 64))

/-- Grouping of padded bytes into little-endian 32-bit words. -/
def toWordsLE : List Nat → List Nat
  | b0 :: b1 :: b2 :: b3 :: rest =>
      (b0 + 256 * (b1 + 256 * (b2 + 256 * b3))) :: toWordsLE rest
  | _ => []

/-- Grouping of the word stream into 16-word blocks. -/
def toBlocks16 : List Nat → List (List Nat)
  | w0 :: w1 :: w2 :: w3 :: w4 :: w5 :: w6 :: w7 ::
    w8 :: w9 :: w10 :: w11 :: w12 :: w13 :: w14 :: w15 :: rest =>
      [w0, w1, w2, w3, w4, w5, w6, w7, w8, w9, w10, w11, w12, w13, w14, w15]
        :: toBlocks16 rest
  | _ => []

/-- Little-endian 4-byte rendering of a 32-bit word. -/
def le4 (n : Nat) : List Nat :=
  [n % 256, n / 256 % 256, n / 256 ^ 2 % 256, n / 256 ^ 3 % 256]

/-- The 16-byte MD5 digest of a byte string. -/
def md5Bytes (msg : List Nat) : List Nat :=
  let st := (toBlocks16 (toWordsLE (md5Pad msg))).foldl md5Block
      ⟨0x67452301, 0xefcdab89, 0x98badcfe, 0x10325476⟩
  le4 st.a ++ le4 st.b ++ le4 st.c ++ le4 st.d

/-- Lowercase hexadecimal digit characters. -/
def hexChar (n : Nat) : Char := "0123456789abcdef".toList.getD n '0'

/-- Rendering of a byte string as lowercase hex, two characters per byte,
as `hexdigest` does. -/
def bytesToHex : List Nat → List Char
  | [] => []
  | b :: rest => hexChar (b / 16) :: hexChar (b % 16) :: bytesToHex rest

/-- The MD5 hexdigest of a byte content, as a character sequence. -/
def md5hex (content : List Nat) : List Char := bytesToHex (md5Bytes content)

/-- A migration module as seen by the checksum service: it exposes the
filesystem location of its backing source file. -/
structure MigrationModule where
  location : String

/-- UTF-8 decoding worker, recursing on explicit fuel so that it is
structurally recursive; with fuel at least the byte count the fuel
never runs out, each decoded code point consuming at least one byte.
Decodes a raw byte string into Unicode code points, returning none on
any invalid sequence, exactly where a text-mode read raises
UnicodeDecodeError: stray continuation bytes, overlong encodings,
surrogate code points, values past 0x10FFFF and truncated sequences
are all rejected. -/
def decodeUtf8Go : Nat → List Nat → Option (List Nat)
  | _, [] => some []
  | 0, _ :: _ => none
  | fuel + 1, b0 :: rest =>
      if b0 < 0x80 then
        (decodeUtf8Go fuel rest).map (fun t => b0 :: t)
      else if b0 < 0xC2 then none
      else if b0 < 0xE0 then
        match rest with
        | b1 :: rest2 =>
            if 0x80 ≤ b1 ∧ b1 < 0xC0 then
              (decodeUtf8Go fuel rest2).map
                (fun t => ((b0 - 0xC0) * 64 + (b1 - 0x80)) :: t)
            else none
        | [] => none
      else if b0 < 0xF0 then
        match rest with
        | b1 :: b2 :: rest2 =>
            if (0x80 ≤ b1 ∧ b1 < 0xC0) ∧ (0x80 ≤ b2 ∧ b2 < 0xC0) ∧
                ¬(b0 = 0xE0 ∧ b1 < 0xA0) ∧ ¬(b0 = 0xED ∧ 0xA0 ≤ b1) then
              (decodeUtf8Go fuel rest2).map
                (fun t => ((b0 - 0xE0) * 4096 + (b1 - 0x80) * 64 + (b2 - 0x80)) :: t)
            else none
        | _ => none
      else if b0 < 0xF5 then
        match rest with
        | b1 :: b2 :: b3 :: rest2 =>
            if (0x80 ≤ b1 ∧ b1 < 0xC0) ∧ (0x80 ≤ b2 ∧ b2 < 0xC0) ∧
                (0x80 ≤ b3 ∧ b3 < 0xC0) ∧
                ¬(b0 = 0xF0 ∧ b1 < 0x90) ∧ ¬(b0 = 0xF4 ∧ 0x90 ≤ b1) then
              (decodeUtf8Go fuel rest2).map
                (fun t => ((b0 - 0xF0) * 262144 + (b1 - 0x80) * 4096 +
                  (b2 - 0x80) * 64 + (b3 - 0x80)) :: t)
            else none
        | _ => none
      else none

/-- UTF-8 decoding of a raw byte string, with fuel set to the byte
count, which always suffices. -/
def decodeUtf8 (raw : List Nat) : Option (List Nat) :=
  decodeUtf8Go raw.length raw

/-- Universal-newline translation performed by a Python text-mode read:
carriage-return line-feed pairs and lone carriage returns both become a
single line feed in the decoded text. -/
def translateNewlines : List Nat → List Nat
  | 13 :: 10 :: rest => 10 :: translateNewlines rest
  | 13 :: rest => 10 :: translateNewlines rest
  | c :: rest => c :: translateNewlines rest
  | [] => []

/-- A full text-mode read of a raw byte content, as `open(path, "r")`
followed by `f.read()` performs it with UTF-8 as the platform text
encoding: UTF-8 decoding, then universal-newline translation. -/
def pyTextRead (raw : List Nat) : Option (List Nat) :=
  (decodeUtf8 raw).map translateNewlines

/-- UTF-8 encoding of one Unicode code point, as `str.encode()` emits
it. -/
def encodeUtf8Char (c : Nat) : List Nat :=
  if c < 0x80 then [c]
  else if c < 0x800 then [0xC0 + c / 64, 0x80 + c % 64]
  else if c < 0x10000 then [0xE0 + c / 4096, 0x80 + c / 64 % 64, 0x80 + c % 64]
  else [0xF0 + c / 262144, 0x80 + c / 4096 % 64, 0x80 + c / 64 % 64, 0x80 + c % 64]

/-- UTF-8 encoding of a decoded text, as `str.encode()` returns it. -/
def encodeUtf8 : List Nat → List Nat
  | [] => []
  | c :: rest => encodeUtf8Char c ++ encodeUtf8 rest

/-- Failure modes of the checksum service's file read: a missing file
(FileNotFoundError) and undecodable content (UnicodeDecodeError). -/
inductive ReadError where
  | fileNotFound
  | unicodeDecodeError
deriving DecidableEq, Repr

/-- `calculate_migration_checksum(module)`: opens the file at the
module's location in text mode, reads it fully (UTF-8 decoding plus
universal-newline translation), re-encodes the resulting text with
`str.encode()` and returns the MD5 hexdigest of those bytes.  The file
system is an explicit parameter from paths to raw byte contents. -/
def calculate_migration_checksum (fs : String → Option (List Nat))
    (module : MigrationModule) : Except ReadError (List Char) :=
  match fs module.location with
  | none => Except.error ReadError.fileNotFound
  | some raw =>
      match pyTextRead raw with
      | none => Except.error ReadError.unicodeDecodeError
      | some text => Except.ok (md5hex (encodeUtf8 text))

/-! ### Business-rule engine -/

/-- Modelled from the spec: the `MigrationBusinessRule` abstraction, whose
implementation file is not part of the sources at hand (only its tests
are).  A rule carries a `name`, the ordered `depends_on` names, and
`check_is_broken`, the outcome its client check would report when
actually invoked in this pass. -/
structure MigrationBusinessRule where
  name : String
  depends_on : List String
  check_is_broken : Bool
deriving DecidableEq, Repr

/-- Outcome recorded for one rule in an evaluation pass: whether it was
reported broken and whether its client check was actually invoked. -/
structure RuleOutcome where
  name : String
  is_broken : Bool
  check_invoked : Bool
deriving DecidableEq, Repr

/-- Modelled from the spec: resolution of one dependency name against the
rules already evaluated in this pass; the dependency fails when the name
is unresolved or the named rule was marked broken. -/
def depFails (prior : List RuleOutcome) (d : String) : Bool :=
  match prior.find? (fun r => r.name == d) with
  | none => true
  | some r => r.is_broken

/-- Modelled from the spec: evaluation of a single rule given the
outcomes already recorded in this pass.  A failing dependency marks the
rule broken without invoking its client check; otherwise the check is
invoked and its result recorded. -/
def evalRuleStep (prior : List RuleOutcome) (r : MigrationBusinessRule) : RuleOutcome :=
  if r.depends_on.any (depFails prior) then ⟨r.name, true, false⟩
  else ⟨r.name, r.check_is_broken, true⟩

/-- Modelled from the spec: the evaluation pass in declared sequence
order, threading the outcomes recorded so far. -/
def evalRulesGo : List MigrationBusinessRule → List RuleOutcome → List RuleOutcome
  | [], acc => acc
  | r :: rest, acc => evalRulesGo rest (acc ++ [evalRuleStep acc r])

/-- Modelled from the spec: one full rule-evaluation pass of the engine
over an ordered rule sequence. -/
def evalRules (rules : List MigrationBusinessRule) : List RuleOutcome :=
  evalRulesGo rules []

/-- Modelled from the spec: the engine's rule-evaluation pass over a
`MigrationProcess`, evaluating the process's rule sequence. -/
def evalProcessRules (p : MigrationProcess C MigrationBusinessRule) : List RuleOutcome :=
  evalRules p.rules

/-! ### Filename strategies -/

/-- Decimal rendering worker, recursing on explicit fuel so that it is
structurally recursive: emits the digits of n most significant first. -/
def decimalCharsGo : Nat → Nat → List Char
  | 0, _ => []
  | fuel + 1, n =>
      if n = 0 then []
      else decimalCharsGo fuel (n / 10) ++ [Nat.digitChar (n % 10)]

/-- Decimal digit characters of a natural number, most significant digit
first, as Python `str` renders a nonnegative int. -/
def decimalChars (n : Nat) : List Char :=
  if n = 0 then ['0'] else decimalCharsGo n n

/-- Python `str(n).zfill(3)`: the decimal rendering left-padded with
zeros to at least three characters. -/
def zfill3 (n : Nat) : List Char :=
  List.replicate (3 - (decimalChars n).length) '0' ++ decimalChars n

namespace NumericalFilenameStrategy

/-- Modelled from the spec: the Numerical strategy's validity check,
whose implementation file is not part of the sources at hand (only its
tests are).  A filename is valid iff it begins with a zero-padded
three-digit numeric run followed by an underscore. -/
def is_valid_filename (filename : List Char) : Bool :=
  match filename with
  | a :: b :: c :: d :: _ => a.isDigit && b.isDigit && c.isDigit && d == '_'
  | _ => false

/-- Modelled from the spec: the Numerical strategy's transform, whose
implementation file is not part of the sources at hand.  A valid
filename is returned unchanged; otherwise the given position,
zero-padded to three digits, plus an underscore is prepended. -/
def transform_migration_filename (filename : List Char) (position : Nat) : List Char :=
  if is_valid_filename filename then filename
  else zfill3 position ++ '_' :: filename

end NumericalFilenameStrategy

/-- Test for a leading underscore character of a character sequence. -/
def headIsUnderscore : List Char → Bool
  | c :: _ => c == '_'
  | [] => false

namespace UnixFilenameStrategy

/-- Modelled from the spec: the Unix strategy's validity check, whose
implementation file is not part of the sources at hand (only its tests
are).  A filename is valid iff its leading numeric run has length at
least ten and is followed by an underscore. -/
def is_valid_filename (filename : List Char) : Bool :=
  decide (10 ≤ (filename.takeWhile Char.isDigit).length) &&
    headIsUnderscore (filename.dropWhile Char.isDigit)

/-- Modelled from the spec: the Unix strategy's transform, whose
implementation file is not part of the sources at hand.  A valid
filename passes through unchanged; generation of a timestamp name for an
invalid filename is an external-collaborator concern, abstracted here as
the fallback parameter. -/
def transform_migration_filename (fallback : List Char → Nat → List Char)
    (filename : List Char) (position : Nat) : List Char :=
  if is_valid_filename filename then filename else fallback filename position

end UnixFilenameStrategy

namespace MissingFilenameStrategy

/-- Modelled from the spec: the Missing strategy's validity check, whose
implementation file is not part of the sources at hand (only its tests
are).  Every filename is considered valid as-is. -/
def is_valid_filename (filename : List Char) : Bool :=
  true

/-- Modelled from the spec: the Missing strategy's transform, whose
implementation file is not part of the sources at hand.  The filename is
always returned unchanged. -/
def transform_migration_filename (filename : List Char) (position : Nat) : List Char :=
  filename

end MissingFilenameStrategy

/-! ### Supporting lemmas -/

/-- The hex rendering emits exactly two characters per byte. -/
theorem bytesToHex_length (bs : List Nat) : (bytesToHex bs).length = 2 * bs.length := by
  induction bs with
  | nil => rfl
  | cons b rest ih =>
      simp only [bytesToHex, List.length_cons, ih]
      ring

/-- The MD5 digest is sixteen bytes for every message. -/
theorem md5Bytes_length (msg : List Nat) : (md5Bytes msg).length = 16 := by
  simp [md5Bytes, le4]

/-- The MD5 hexdigest has thirty-two characters for every message. -/
theorem md5hex_length (msg : List Nat) : (md5hex msg).length = 32 := by
  simp [md5hex, bytesToHex_length, md5Bytes_length]

/-- After the identity key is popped, looking it up finds nothing. -/
theorem lookupKey_stripId (m : Mapping) : lookupKey (stripId m) "_id" = none := by
  induction m with
  | nil => rfl
  | cons p rest ih =>
      by_cases h : p.1 == "_id"
      · simpa [stripId, List.filter_cons, h] using ih
      · simpa [stripId, List.filter_cons, h, lookupKey] using ih

/-- Every entry surviving the pop of the identity key has a key other
than the identity key. -/
theorem stripId_mem_ne (m : Mapping) (p : String × Value) (hp : p ∈ stripId m) :
    p.1 ≠ "_id" := by
  have := (List.mem_filter.mp hp).2
  simpa using this

/-- An entry with a key other than the identity key survives the pop. -/
theorem mem_stripId_of_mem (m : Mapping) (p : String × Value)
    (hp : p ∈ m) (hne : p.1 ≠ "_id") : p ∈ stripId m := by
  refine List.mem_filter.mpr ⟨hp, ?_⟩
  simpa using hne

/-! ### Claim theorems -/

/-- C1: for every Migration m, `from_dict` applied to the mapping
produced by `m.to_dict(unique=true)` (the identity key being stripped by
the call itself) constructs the read model equal field-for-field to
`from_migration(m)`. -/
theorem claim_C1_readmodel_roundtrip {C R : Type} (m : Migration C R) :
    MigrationReadModel.from_dict (m.to_dict true) =
      some (MigrationReadModel.from_migration m) := by
  rfl

/-- C2: `set_is_applied(b)` sets the applied flag to b and changes
nothing else: name, version, checksum, description and the two command
processes are untouched, and the embedded method is a pure state
transition touching no command. -/
theorem claim_C2_set_is_applied_frame {C R : Type} (m : Migration C R) (b : Bool) :
    (m.set_is_applied b).is_applied = b ∧
    (m.set_is_applied b).name = m.name ∧
    (m.set_is_applied b).version = m.version ∧
    (m.set_is_applied b).checksum = m.checksum ∧
    (m.set_is_applied b).description = m.description ∧
    (m.set_is_applied b).upgrade_process = m.upgrade_process ∧
    (m.set_is_applied b).downgrade_process = m.downgrade_process ∧
    (m.set_is_applied b).upgrade_process.commands = m.upgrade_process.commands ∧
    (m.set_is_applied b).downgrade_process.commands = m.downgrade_process.commands :=
  ⟨rfl, rfl, rfl, rfl, rfl, rfl, rfl, rfl, rfl⟩

/-- C8: the Missing strategy accepts every filename and its transform is
the identity on the filename for every position. -/
theorem claim_C8_missing_identity (filename : List Char) (position : Nat) :
    MissingFilenameStrategy.is_valid_filename filename = true ∧
    MissingFilenameStrategy.transform_migration_filename filename position = filename :=
  ⟨rfl, rfl⟩

/-- C5: `from_dict` fails on every mapping that, once the identity key
is stripped, is missing one of the five required keys; no default is
filled in. -/
theorem claim_C5_from_dict_missing_key (mapping : Mapping) (k : String)
    (hk : k ∈ requiredKeys) (hmiss : lookupKey (stripId mapping) k = none) :
    MigrationReadModel.from_dict mapping = none := by
  unfold MigrationReadModel.from_dict
  fin_cases hk <;>
    cases h1 : lookupKey (stripId mapping) "name" <;>
    cases h2 : lookupKey (stripId mapping) "version" <;>
    cases h3 : lookupKey (stripId mapping) "checksum" <;>
    cases h4 : lookupKey (stripId mapping) "description" <;>
    cases h5 : lookupKey (stripId mapping) "is_applied" <;>
    simp_all

/-- C5 witness: a mapping carrying only the version is rejected. -/
theorem claim_C5_from_dict_missing_key_witness :
    MigrationReadModel.from_dict [("version", Value.int 1)] = none :=
  claim_C5_from_dict_missing_key [("version", Value.int 1)] "name"
    (by decide) (by decide)

/-- C9: `from_dict` pops the identity key from the caller's own mapping:
whenever the key is present on entry, it is gone from the caller's
mapping after the call, so the input mapping is not preserved. -/
theorem claim_C9_from_dict_mutates_argument (mapping : Mapping)
    (h : "_id" ∈ mapping.map Prod.fst) :
    lookupKey (MigrationReadModel.from_dict_post mapping) "_id" = none ∧
    MigrationReadModel.from_dict_post mapping ≠ mapping := by
  constructor
  · exact lookupKey_stripId mapping
  · intro heq
    rcases List.mem_map.mp h with ⟨p, hp, hfst⟩
    have hmem : p ∈ stripId mapping := by
      rw [MigrationReadModel.from_dict_post] at heq
      rw [heq]
      exact hp
    exact stripId_mem_ne mapping p hmem hfst

/-- C9 witness: a stored document with its identity key loses it. -/
theorem claim_C9_from_dict_mutates_argument_witness :
    lookupKey (MigrationReadModel.from_dict_post
        [("_id", Value.int 1), ("name", Value.str "m")]) "_id" = none ∧
    MigrationReadModel.from_dict_post [("_id", Value.int 1), ("name", Value.str "m")] ≠
      [("_id", Value.int 1), ("name", Value.str "m")] :=
  claim_C9_from_dict_mutates_argument
    [("_id", Value.int 1), ("name", Value.str "m")] (by decide)

/-- C10: `from_dict` rejects surplus fields: any mapping holding, after
the identity key is stripped, a key outside the five field names fails
rather than being ignored. -/
theorem claim_C10_from_dict_surplus_key (mapping : Mapping) (p : String × Value)
    (hp : p ∈ mapping) (hid : p.1 ≠ "_id") (hreq : p.1 ∉ requiredKeys) :
    MigrationReadModel.from_dict mapping = none := by
  have hmem : p ∈ stripId mapping := mem_stripId_of_mem mapping p hp hid
  have hall : (stripId mapping).all (fun q => requiredKeys.contains q.1) = false := by
    rw [Bool.eq_false_iff]
    intro hall
    have := List.all_eq_true.mp hall p hmem
    rw [List.contains_eq_any_beq] at this
    rcases List.any_eq_true.mp this with ⟨k, hk, hbeq⟩
    exact hreq (by rwa [← eq_of_beq hbeq] at hk)
  unfold MigrationReadModel.from_dict
  cases h1 : lookupKey (stripId mapping) "name" <;>
    cases h2 : lookupKey (stripId mapping) "version" <;>
    cases h3 : lookupKey (stripId mapping) "checksum" <;>
    cases h4 : lookupKey (stripId mapping) "description" <;>
    cases h5 : lookupKey (stripId mapping) "is_applied" <;>
    simp_all

/-- C10 witness: a complete document with one unknown extra key is
rejected. -/
theorem claim_C10_from_dict_surplus_key_witness :
    MigrationReadModel.from_dict
      [("name", Value.str "m"), ("version", Value.int 1),
       ("checksum", Value.str "c"), ("description", Value.str "d"),
       ("is_applied", Value.bool true), ("extra", Value.int 0)] = none :=
  claim_C10_from_dict_surplus_key
    [("name", Value.str "m"), ("version", Value.int 1),
     ("checksum", Value.str "c"), ("description", Value.str "d"),
     ("is_applied", Value.bool true), ("extra", Value.int 0)]
    ("extra", Value.int 0) (by decide) (by decide) (by decide)

/-- Splitting a filename made of a digit run, an underscore and a tail:
the leading digit run is exactly the first component. -/
theorem takeWhile_digits_append (ds rest : List Char)
    (h : ∀ c ∈ ds, c.isDigit = true) :
    (ds ++ '_' :: rest).takeWhile Char.isDigit = ds ∧
    (ds ++ '_' :: rest).dropWhile Char.isDigit = '_' :: rest := by
  induction ds with
  | nil =>
      constructor <;> simp [List.takeWhile_cons, List.dropWhile_cons]
  | cons a t ih =>
      have ha := h a (List.mem_cons_self a t)
      have ih2 := ih (fun c hc => h c (List.mem_cons_of_mem a hc))
      constructor <;>
        simp [List.takeWhile_cons, List.dropWhile_cons, ha, ih2.1, ih2.2]

/-- C7: the Unix strategy accepts exactly the filenames whose leading
numeric run has at least ten digits and is followed by an underscore, a
five-digit prefixed name being invalid, and every valid filename passes
through the transform unchanged whatever the external fallback does. -/
theorem claim_C7_unix_strategy (filename : List Char) :
    (UnixFilenameStrategy.is_valid_filename filename = true ↔
      ∃ ds rest, filename = ds ++ '_' :: rest ∧ 10 ≤ ds.length ∧
        ∀ c ∈ ds, c.isDigit = true) ∧
    UnixFilenameStrategy.is_valid_filename ("12345_file.txt".toList) = false ∧
    (∀ fallback position, UnixFilenameStrategy.is_valid_filename filename = true →
      UnixFilenameStrategy.transform_migration_filename fallback filename position =
        filename) := by
  refine ⟨?_, by decide, ?_⟩
  · constructor
    · intro h
      unfold UnixFilenameStrategy.is_valid_filename at h
      rw [Bool.and_eq_true] at h
      obtain ⟨hlen, hmatch⟩ := h
      cases hdrop : filename.dropWhile Char.isDigit with
      | nil => rw [hdrop] at hmatch; simp [headIsUnderscore] at hmatch
      | cons c t =>
          rw [hdrop] at hmatch
          have hc : c = '_' := by
            have : (c == '_') = true := hmatch
            exact eq_of_beq this
          subst hc
          refine ⟨filename.takeWhile Char.isDigit, t, ?_, ?_, ?_⟩
          · conv_lhs =>
              rw [← List.takeWhile_append_dropWhile (p := Char.isDigit) (l := filename)]
            rw [hdrop]
          · exact of_decide_eq_true hlen
          · intro x hx
            exact List.mem_takeWhile_imp hx
    · rintro ⟨ds, rest, hfn, hlen, hdig⟩
      subst hfn
      obtain ⟨htake, hdropw⟩ := takeWhile_digits_append ds rest hdig
      unfold UnixFilenameStrategy.is_valid_filename
      rw [htake, hdropw]
      simp [headIsUnderscore, hlen]
  · intro fallback position h
    unfold UnixFilenameStrategy.transform_migration_filename
    rw [h]
    simp

/-- C7 witness: a ten-digit timestamp-prefixed filename is valid and is
returned unchanged by the transform. -/
theorem claim_C7_unix_strategy_witness :
    UnixFilenameStrategy.transform_migration_filename (fun n _ => n)
      ("1234567890_file.txt".toList) 1 = "1234567890_file.txt".toList :=
  (claim_C7_unix_strategy ("1234567890_file.txt".toList)).2.2
    (fun n _ => n) 1 (by decide)

/-- A digit value below ten renders as a digit character. -/
theorem digitChar_isDigit (d : Nat) (h : d < 10) : (Nat.digitChar d).isDigit = true := by
  interval_cases d <;> decide

/-- Every character emitted by the decimal worker is a digit. -/
theorem decimalCharsGo_digits (fuel n : Nat) :
    ∀ c ∈ decimalCharsGo fuel n, c.isDigit = true := by
  induction fuel generalizing n with
  | zero => intro c hc; simp [decimalCharsGo] at hc
  | succ fuel ih =>
      intro c hc
      unfold decimalCharsGo at hc
      by_cases h0 : n = 0
      · simp [h0] at hc
      · simp only [h0, if_false] at hc
        rcases List.mem_append.mp hc with h | h
        · exact ih (n / 10) c h
        · rcases List.mem_singleton.mp h with rfl
          exact digitChar_isDigit (n % 10) (Nat.mod_lt n (by norm_num))

/-- Every character of the decimal rendering is a digit. -/
theorem decimalChars_digits (n : Nat) : ∀ c ∈ decimalChars n, c.isDigit = true := by
  intro c hc
  unfold decimalChars at hc
  by_cases h : n = 0
  · simp [h] at hc
    subst hc
    decide
  · simp only [h, if_false] at hc
    exact decimalCharsGo_digits n n c hc

/-- The decimal worker emits at most k characters for inputs below
10 ^ k. -/
theorem decimalCharsGo_length_le (fuel k n : Nat) (h : n < 10 ^ k) :
    (decimalCharsGo fuel n).length ≤ k := by
  induction fuel generalizing k n with
  | zero => simp [decimalCharsGo]
  | succ fuel ih =>
      unfold decimalCharsGo
      by_cases h0 : n = 0
      · simp [h0]
      · simp only [h0, if_false, List.length_append, List.length_singleton]
        cases k with
        | zero =>
            exfalso
            exact h0 (Nat.lt_one_iff.mp (by simpa using h))
        | succ k =>
            have hdiv : n / 10 < 10 ^ k := by
              rw [Nat.div_lt_iff_lt_mul (by norm_num)]
              calc n < 10 ^ (k + 1) := h
                _ = 10 ^ k * 10 := by ring
            have := ih k (n / 10) hdiv
            omega

/-- A number up to 999 renders in at most three decimal characters. -/
theorem decimalChars_length_le (n : Nat) (h : n ≤ 999) :
    (decimalChars n).length ≤ 3 := by
  unfold decimalChars
  by_cases h0 : n = 0
  · simp [h0]
  · simp only [h0, if_false]
    exact decimalCharsGo_length_le n 3 n (by norm_num; omega)

/-- Every character of a zero-padded position is a digit. -/
theorem zfill3_digits (n : Nat) : ∀ c ∈ zfill3 n, c.isDigit = true := by
  intro c hc
  unfold zfill3 at hc
  rcases List.mem_append.mp hc with h | h
  · have := List.eq_of_mem_replicate h
    subst this
    decide
  · exact decimalChars_digits n c h

/-- A position up to 999 zero-pads to exactly three digit characters. -/
theorem zfill3_spec (n : Nat) (h : n ≤ 999) :
    ∃ x y z : Char, zfill3 n = [x, y, z] ∧
      x.isDigit = true ∧ y.isDigit = true ∧ z.isDigit = true := by
  have hlen : (zfill3 n).length = 3 := by
    have hle := decimalChars_length_le n h
    unfold zfill3
    simp only [List.length_append, List.length_replicate]
    omega
  rcases List.length_eq_three.mp hlen with ⟨x, y, z, hxyz⟩
  refine ⟨x, y, z, hxyz, ?_, ?_, ?_⟩ <;>
    exact zfill3_digits n _ (by rw [hxyz]; simp)

/-- C6 (amended): the Numerical strategy accepts exactly the filenames
opening with three digit characters and an underscore; a valid filename
passes through the transform unchanged for every position, an invalid
one gets the zero-padded position and an underscore prepended; the
transform is idempotent for every position up to 999, the positions
whose zero-padded rendering has exactly three digits. -/
theorem claim_C6_numerical_strategy (filename : List Char) (position : Nat) :
    (NumericalFilenameStrategy.is_valid_filename filename = true ↔
      ∃ x y z rest, filename = x :: y :: z :: '_' :: rest ∧
        x.isDigit = true ∧ y.isDigit = true ∧ z.isDigit = true) ∧
    (NumericalFilenameStrategy.is_valid_filename filename = true →
      NumericalFilenameStrategy.transform_migration_filename filename position =
        filename) ∧
    (NumericalFilenameStrategy.is_valid_filename filename = false →
      NumericalFilenameStrategy.transform_migration_filename filename position =
        zfill3 position ++ '_' :: filename) ∧
    (position ≤ 999 →
      NumericalFilenameStrategy.transform_migration_filename
          (NumericalFilenameStrategy.transform_migration_filename filename position)
          position =
        NumericalFilenameStrategy.transform_migration_filename filename position) := by
  have hvalid : ∀ fn, NumericalFilenameStrategy.is_valid_filename fn = true →
      NumericalFilenameStrategy.transform_migration_filename fn position = fn := by
    intro fn h
    unfold NumericalFilenameStrategy.transform_migration_filename
    rw [h]
    simp
  have hinvalid : NumericalFilenameStrategy.is_valid_filename filename = false →
      NumericalFilenameStrategy.transform_migration_filename filename position =
        zfill3 position ++ '_' :: filename := by
    intro h
    unfold NumericalFilenameStrategy.transform_migration_filename
    rw [h]
    simp
  refine ⟨?_, hvalid filename, hinvalid, ?_⟩
  · constructor
    · intro h
      rcases filename with _ | ⟨x, _ | ⟨y, _ | ⟨z, _ | ⟨w, rest⟩⟩⟩⟩ <;>
        simp [NumericalFilenameStrategy.is_valid_filename] at h
      obtain ⟨⟨⟨hx, hy⟩, hz⟩, hw⟩ := h
      exact ⟨x, y, z, rest, by rw [hw], hx, hy, hz⟩
    · rintro ⟨x, y, z, rest, rfl, hx, hy, hz⟩
      simp [NumericalFilenameStrategy.is_valid_filename, hx, hy, hz]
  · intro hpos
    by_cases h : NumericalFilenameStrategy.is_valid_filename filename = true
    · rw [hvalid filename h, hvalid filename h]
    · have h2 := eq_false_of_ne_true h
      rw [hinvalid h2]
      apply hvalid
      rcases zfill3_spec position hpos with ⟨x, y, z, hxyz, hx, hy, hz⟩
      rw [hxyz]
      simp [NumericalFilenameStrategy.is_valid_filename, hx, hy, hz]

/-- C6 counterexample: at position 1000 the zero-padded rendering has
four digits, the transformed name is not valid, and a second transform
prepends again, so the transform is not idempotent as claimed for every
position. -/
theorem claim_C6_numerical_counterexample :
    NumericalFilenameStrategy.transform_migration_filename
        (NumericalFilenameStrategy.transform_migration_filename
          ("file.txt".toList) 1000) 1000 ≠
      NumericalFilenameStrategy.transform_migration_filename
        ("file.txt".toList) 1000 := by
  decide

/-- C6 witness: an invalid filename at position 2 gets the padded
position prepended, and the transform at position 2 is idempotent. -/
theorem claim_C6_numerical_strategy_witness :
    NumericalFilenameStrategy.transform_migration_filename ("abc_file.txt".toList) 2 =
        zfill3 2 ++ '_' :: "abc_file.txt".toList ∧
    NumericalFilenameStrategy.transform_migration_filename
        (NumericalFilenameStrategy.transform_migration_filename
          ("abc_file.txt".toList) 2) 2 =
      NumericalFilenameStrategy.transform_migration_filename
        ("abc_file.txt".toList) 2 :=
  ⟨(claim_C6_numerical_strategy ("abc_file.txt".toList) 2).2.2.1 (by decide),
   (claim_C6_numerical_strategy ("abc_file.txt".toList) 2).2.2.2 (by decide)⟩

/-- The evaluation pass only appends outcomes after those already
recorded. -/
theorem evalRulesGo_append (rules : List MigrationBusinessRule) (acc : List RuleOutcome) :
    ∃ tail, evalRulesGo rules acc = acc ++ tail := by
  induction rules generalizing acc with
  | nil => exact ⟨[], by simp [evalRulesGo]⟩
  | cons r rest ih =>
      rcases ih (acc ++ [evalRuleStep acc r]) with ⟨tail, htail⟩
      exact ⟨evalRuleStep acc r :: tail, by simp [evalRulesGo, htail]⟩

/-- The evaluation pass records exactly one outcome per rule. -/
theorem evalRulesGo_length (rules : List MigrationBusinessRule) (acc : List RuleOutcome) :
    (evalRulesGo rules acc).length = acc.length + rules.length := by
  induction rules generalizing acc with
  | nil => simp [evalRulesGo]
  | cons r rest ih =>
      rw [evalRulesGo, ih]
      simp
      omega

/-- Outcome i of the pass is the single-rule evaluation of rule i
against the outcomes recorded before position i. -/
theorem evalRulesGo_getD (rules : List MigrationBusinessRule) (acc : List RuleOutcome)
    (i : Nat) (hi : i < rules.length) (dR : MigrationBusinessRule) (dO : RuleOutcome) :
    (evalRulesGo rules acc).getD (acc.length + i) dO =
      evalRuleStep ((evalRulesGo rules acc).take (acc.length + i)) (rules.getD i dR) := by
  induction rules generalizing acc i with
  | nil => exact absurd hi (by simp)
  | cons r rest ih =>
      cases i with
      | zero =>
          show (evalRulesGo rest (acc ++ [evalRuleStep acc r])).getD (acc.length + 0) dO =
            evalRuleStep
              ((evalRulesGo rest (acc ++ [evalRuleStep acc r])).take (acc.length + 0)) r
          rcases evalRulesGo_append rest (acc ++ [evalRuleStep acc r]) with ⟨tail, htail⟩
          rw [htail, Nat.add_zero, List.append_assoc]
          rw [List.getD_append_right acc _ dO acc.length (le_refl _)]
          rw [List.take_left' rfl]
          simp
      | succ j =>
          have hj : j < rest.length := by simpa using hi
          have hidx : acc.length + (j + 1) = (acc ++ [evalRuleStep acc r]).length + j := by
            simp
            omega
          show (evalRulesGo rest (acc ++ [evalRuleStep acc r])).getD (acc.length + (j + 1)) dO =
            evalRuleStep
              ((evalRulesGo rest (acc ++ [evalRuleStep acc r])).take (acc.length + (j + 1)))
              (rest.getD j dR)
          rw [hidx]
          exact ih (acc ++ [evalRuleStep acc r]) j hj

/-- C4: in one rule-evaluation pass over a process, the pass records one
outcome per rule; a rule one of whose dependency names is unresolved
among the outcomes recorded earlier in the pass, or resolves to an
outcome marked broken, is reported broken with its client check not
invoked; and a rule with no dependencies has its client check invoked,
exactly once since the pass records a single outcome for it. -/
theorem claim_C4_rule_engine_pass {C : Type} (p : MigrationProcess C MigrationBusinessRule)
    (i : Nat) (hi : i < p.rules.length) :
    (evalProcessRules p).length = p.rules.length ∧
    ((p.rules.getD i ⟨"", [], false⟩).depends_on.any
        (depFails ((evalProcessRules p).take i)) = true →
      (evalProcessRules p).getD i ⟨"", false, false⟩ =
        ⟨(p.rules.getD i ⟨"", [], false⟩).name, true, false⟩) ∧
    ((p.rules.getD i ⟨"", [], false⟩).depends_on = [] →
      (evalProcessRules p).getD i ⟨"", false, false⟩ =
        ⟨(p.rules.getD i ⟨"", [], false⟩).name,
          (p.rules.getD i ⟨"", [], false⟩).check_is_broken, true⟩) := by
  have hlen : (evalProcessRules p).length = p.rules.length := by
    have := evalRulesGo_length p.rules []
    simpa [evalProcessRules, evalRules] using this
  have hget := evalRulesGo_getD p.rules [] i hi ⟨"", [], false⟩ ⟨"", false, false⟩
  simp only [List.length_nil, Nat.zero_add] at hget
  have hget2 : (evalProcessRules p).getD i ⟨"", false, false⟩ =
      evalRuleStep ((evalProcessRules p).take i) (p.rules.getD i ⟨"", [], false⟩) := by
    simpa [evalProcessRules, evalRules] using hget
  refine ⟨hlen, ?_, ?_⟩
  · intro hdep
    rw [hget2]
    unfold evalRuleStep
    rw [hdep]
    simp
  · intro hnil
    rw [hget2]
    unfold evalRuleStep
    rw [hnil]
    simp

/-- Process exercising the engine pass: a dependency-free broken rule
followed by a rule depending on it. -/
def ruleEngineWitnessProcess : MigrationProcess Unit MigrationBusinessRule :=
  ⟨"upgrade", [], 1, [⟨"R1", [], true⟩, ⟨"R2", ["R1"], false⟩]⟩

/-- C4 witness: in the concrete pass, the dependency-free rule R1 has
its check invoked, and R2, depending on broken R1, is reported broken
with its check not invoked. -/
theorem claim_C4_rule_engine_pass_witness :
    (evalProcessRules ruleEngineWitnessProcess).getD 0 ⟨"", false, false⟩ =
      ⟨"R1", true, true⟩ ∧
    (evalProcessRules ruleEngineWitnessProcess).getD 1 ⟨"", false, false⟩ =
      ⟨"R2", true, false⟩ :=
  ⟨(claim_C4_rule_engine_pass ruleEngineWitnessProcess 0 (by decide)).2.2 (by decide),
   (claim_C4_rule_engine_pass ruleEngineWitnessProcess 1 (by decide)).2.1 (by decide)⟩

/-- First text of an all-ASCII MD5 colliding pair: seventy-two
printable characters that decode and re-encode unchanged through a
text-mode read. -/
def textCollA : List Nat :=
  "TEXTCOLLBYfGiJUETHQ4hAcKSMd5zYpgqf1YRDhkmxHkhPWptrkoyz28wnI9V0aHeAuaKnak".toList.map
    Char.toNat

/-- Second text of the colliding pair, differing from the first in one
character yet hashing to the same MD5 digest. -/
def textCollB : List Nat :=
  "TEXTCOLLBYfGiJUETHQ4hEcKSMd5zYpgqf1YRDhkmxHkhPWptrkoyz28wnI9V0aHeAuaKnak".toList.map
    Char.toNat

/-- C3 counterexample: byte changes to a migration file that leave the
checksum unchanged.  First, a whitespace byte change: the files holding
the bytes of "a\x0d\x0a" and "a\x0a" differ, yet universal-newline
translation reads both as the same text, so both get the digest of
"a\x0a".  Second, two files holding different pure-ASCII texts, which
pass through decoding and re-encoding untouched, collide under MD5. -/
theorem claim_C3_checksum_counterexample :
    ([97, 13, 10] : List Nat) ≠ [97, 10] ∧
    calculate_migration_checksum
        (fun loc => if loc == "a.py" then some [97, 13, 10] else some [97, 10])
        ⟨"a.py"⟩ =
      calculate_migration_checksum
        (fun loc => if loc == "a.py" then some [97, 13, 10] else some [97, 10])
        ⟨"b.py"⟩ ∧
    textCollA ≠ textCollB ∧
    calculate_migration_checksum
        (fun loc => if loc == "coll_a.py" then some textCollA else some textCollB)
        ⟨"coll_a.py"⟩ =
      calculate_migration_checksum
        (fun loc => if loc == "coll_a.py" then some textCollA else some textCollB)
        ⟨"coll_b.py"⟩ := by
  refine ⟨by decide, rfl, by decide, rfl⟩

/-- C3 (amended): the checksum service reads the module's backing file
fully in text mode, encodes the decoded text back to bytes and returns
its MD5 hexdigest, a fixed-length digest of thirty-two hex characters;
the digest is a deterministic function of the decoded text alone, so
reading identical content twice yields identical digests — but not
every byte change to the content changes the digest: byte changes
absorbed by universal-newline translation leave it unchanged, and
distinct texts can collide under MD5. -/
theorem claim_C3_checksum_service (fs : String → Option (List Nat))
    (module : MigrationModule) (raw text : List Nat)
    (hfs : fs module.location = some raw) (htext : pyTextRead raw = some text) :
    calculate_migration_checksum fs module = Except.ok (md5hex (encodeUtf8 text)) ∧
    (md5hex (encodeUtf8 text)).length = 32 ∧
    (∀ (fs2 : String → Option (List Nat)) (module2 : MigrationModule) (raw2 : List Nat),
      fs2 module2.location = some raw2 → pyTextRead raw2 = some text →
        calculate_migration_checksum fs2 module2 =
          calculate_migration_checksum fs module) := by
  refine ⟨?_, md5hex_length (encodeUtf8 text), ?_⟩
  · simp [calculate_migration_checksum, hfs, htext]
  · intro fs2 module2 raw2 h2 ht2
    simp [calculate_migration_checksum, hfs, htext, h2, ht2]

/-- C3 witness: a file holding the three bytes of "abc" gets the MD5
hexdigest of that text, of length thirty-two, and a second file with
the same content gets the same checksum. -/
theorem claim_C3_checksum_service_witness :
    calculate_migration_checksum (fun _ => some [97, 98, 99]) ⟨"m.py"⟩ =
      Except.ok (md5hex (encodeUtf8 [97, 98, 99])) ∧
    (md5hex (encodeUtf8 [97, 98, 99])).length = 32 ∧
    calculate_migration_checksum (fun _ => some [97, 98, 99]) ⟨"other.py"⟩ =
      calculate_migration_checksum (fun _ => some [97, 98, 99]) ⟨"m.py"⟩ :=
  ⟨(claim_C3_checksum_service (fun _ => some [97, 98, 99]) ⟨"m.py"⟩
      [97, 98, 99] [97, 98, 99] rfl (by decide)).1,
   (claim_C3_checksum_service (fun _ => some [97, 98, 99]) ⟨"m.py"⟩
      [97, 98, 99] [97, 98, 99] rfl (by decide)).2.1,
   (claim_C3_checksum_service (fun _ => some [97, 98, 99]) ⟨"m.py"⟩
      [97, 98, 99] [97, 98, 99] rfl (by decide)).2.2
     (fun _ => some [97, 98, 99]) ⟨"other.py"⟩ [97, 98, 99] rfl (by decide)⟩

/-- RFC 1321 test vector: the digest of the empty content. -/
theorem md5hex_empty : md5hex [] = "d41d8cd98f00b204e9800998ecf8427e".toList := by
  decide

/-- RFC 1321 test vector: the digest of the three bytes of "abc". -/
theorem md5hex_abc : md5hex [97, 98, 99] = "900150983cd24fb0d6963f7d28e17f72".toList := by
  decide

/-- Text-mode sanity vector: a carriage-return line-feed pair reads as a
single line feed. -/
theorem pyTextRead_crlf : pyTextRead [97, 13, 10] = some [97, 10] := by
  decide

/-- Text-mode sanity vector: a byte string opening with 0xD1 0x31, as
raw MD5 collision blocks do, is not valid UTF-8 and fails to decode. -/
theorem decodeUtf8_invalid : decodeUtf8 [209, 49] = none := by
  decide

/-- Text-mode sanity vector: the three-byte UTF-8 sequence of the euro
sign decodes to its code point. -/
theorem decodeUtf8_euro : decodeUtf8 [226, 130, 172] = some [8364] := by
  decide
